import Mathlib

/-!
The notification-to-delivery pipeline of mailinator-box (`main.go`).

A shallow embedding of `New`, `Inbox.Close`, `Inbox.getSessionInfo`,
`Inbox.createSocket`, `Inbox.fetchFullMessage`, `Inbox.formatMessageUrl` and
`Inbox.run`, followed by the properties of the delivery loop, of the stop
operation, of the fetcher and of construction.

Conventions.
* A Go `error` is the text of the error; `nil` is `none`.
* Everything the program does to the outside world is recorded, in program
  order, as a list of `Act`; everything the outside world answers is an input
  (`Env` for construction, a list of `Ev` for the delivery loop).
* The two channels are represented by what happens to them: the stop channel
  `in.stop` by the flag `stopClosed`, the delivery conduit `in.mailReceiver`
  by the `publish` and `closeConduit` entries of the trace.
* `log.Println` / `log.Printf` calls have no effect on control flow and are
  not recorded.
-/

namespace Mailinator

/-! ## Data model -/

def DefaultUserAgent : String :=
  "Mozilla/5.0 (X11; Linux x86_64) AppleWebKit/537.36 (KHTML, like Gecko) Chrome/94.0.4606.61 Safari/537.36"

def DefaultHostname : String := "www.mailinator.com"

structure Config where
  Agent : String
  Hostname : String
deriving DecidableEq, Repr

/-- Headers of one body part (`Message.Data.Parts[i].Headers`). -/
structure PartHeaders where
  Contenttype : String
  Contenttransferencoding : String
deriving DecidableEq, Repr

/-- One element of `Message.Data.Parts`. -/
structure Part where
  Headers : PartHeaders
  Body : String
deriving DecidableEq, Repr

/-- The record `Message.Data.Headers`. -/
structure MessageHeaders where
  Date : String
  From : String
  Contenttype : String
  Dkimsignature : String
  Mimeversion : String
  Subject : String
  Feedbackid : String
  Messageid : String
  Received : String
  To : String
  XSessionoutgoing : String
deriving DecidableEq, Repr

/-- The record `Message.Data`. -/
structure MessageData where
  Fromfull : String
  Headers : MessageHeaders
  Subject : String
  RequestID : String
  Origfrom : String
  Id : String
  Time : Int
  SecondsAgo : Int
  Parts : List Part
deriving DecidableEq, Repr

structure Message where
  From : String
  To : String
  Data : MessageData
deriving DecidableEq, Repr

/-- The Go zero value `Message{}`. -/
def Message.zero : Message :=
  { From := "", To := "",
    Data :=
      { Fromfull := "",
        Headers :=
          { Date := "", From := "", Contenttype := "", Dkimsignature := "", Mimeversion := "",
            Subject := "", Feedbackid := "", Messageid := "", Received := "", To := "",
            XSessionoutgoing := "" },
        Subject := "", RequestID := "", Origfrom := "", Id := "", Time := 0, SecondsAgo := 0,
        Parts := [] } }

/-- The type `http.Header`, as the list of (name, value) lines added so far. -/
abbrev Header := List (String × String)

/-- The method `http.Header.Add`. -/
def Header.Add (h : Header) (key value : String) : Header := h ++ [(key, value)]

/-- The method `http.Header.Get`: the first value stored under the name. -/
def Header.Get (h : Header) (key : String) : Option String :=
  (h.find? (fun kv => kv.1 == key)).map (fun kv => kv.2)

/-- An `http.Request` as built by `http.NewRequest`: method, target, headers. -/
structure Request where
  Method : String
  URL : String
  Header : Header
deriving DecidableEq, Repr

/-- An `http.Cookie` of the bootstrap response. -/
structure Cookie where
  Name : String
  Value : String
deriving DecidableEq, Repr

/-- The `websocket.Config` built by `createSocket`; a URL that failed to parse
is `none` (the `nil` returned by `url.Parse`). -/
structure WsConfig where
  Location : Option String
  Origin : Option String
  Header : Header
  Version : Nat
deriving DecidableEq, Repr

/-- A value held in the decode target `map[string]interface{}`: a JSON string,
or any other JSON value, carried as the text that the `%s` verb of
`fmt.Sprintf` prints for it. -/
inductive Val where
  | str (s : String)
  | other (shown : String)
deriving DecidableEq, Repr

/-- Rendering of a value by the `%s` verb. -/
def Val.sprintS : Val → String
  | .str s => s
  | .other shown => shown

/-- The decode target `data` of `run`, a `map[string]interface{}`. -/
def GoMap : Type := String → Option Val

/-- The map made by `make(map[string]interface{})` (a nil map reads the same). -/
def mapEmpty : GoMap := fun _ => none

/-- The builtin `delete(m, k)`. -/
def mapDelete (m : GoMap) (k : String) : GoMap := fun x => if x = k then none else m x

/-- The assignment `m[k] = v`. -/
def mapSet (m : GoMap) (k : String) (v : Val) : GoMap := fun x => if x = k then some v else m x

/-- What `json.Unmarshal`, called by `websocket.JSON.Receive(in.ws, &data)`,
stored into the decode target. -/
inductive Decoded where
  /-- The frame was not read or is not a JSON object: the map is untouched. -/
  | untouched
  /-- The frame is the JSON `null`: the map variable is set to nil. -/
  | null
  /-- The keys of a JSON object, stored one after the other into the map. -/
  | object (kvs : List (String × Val))
deriving DecidableEq, Repr

/-- Effect of the stored keys on the map that `Receive` was handed. -/
def Decoded.store : Decoded → GoMap → GoMap
  | .untouched, m => m
  | .null, _ => mapEmpty
  | .object kvs, m => kvs.foldl (fun acc kv => mapSet acc kv.1 kv.2) m

/-- Outcome of one call `websocket.JSON.Receive(in.ws, &data)`: the returned
error and what was stored into `data`. -/
structure Recv where
  err : Option String
  stored : Decoded
deriving DecidableEq, Repr

/-- An `http.Response`, represented by the `Message` that
`json.NewDecoder(resp.Body).Decode(&msg)` leaves in a zero `msg` (`run`
ignores the error that `Decode` returns). -/
structure Response where
  Body : Message
deriving DecidableEq, Repr

/-- Everything the program does to the outside world. -/
inductive Act where
  /-- Bootstrap `http.Get(url)`. -/
  | httpGet (url : String)
  /-- Handshake `websocket.DialConfig(c)`. -/
  | wsDial (c : WsConfig)
  /-- The statement `go in.run()`. -/
  | goRun
  /-- The call `websocket.JSON.Send(in.ws, x)`. -/
  | wsSend (x : List (String × String))
  /-- The call `http.DefaultClient.Do(r)`. -/
  | httpDo (r : Request)
  /-- The send `in.mailReceiver <- &msg`. -/
  | publish (msg : Message)
  /-- The deferred `close(in.mailReceiver)`. -/
  | closeConduit
deriving DecidableEq, Repr

/-- The `Inbox` record. The connection `ws` and the conduit `mailReceiver` are
represented by the trace; `stopClosed` tells whether the channel currently
held in `in.stop` has been closed. -/
structure Inbox where
  conf : Config
  sessionCookie : String
  inboxName : String
  stopClosed : Bool
  err : Option String
deriving DecidableEq, Repr

/-- The answers of the outside world during construction. -/
structure Env where
  /-- Result of `http.Get(url)`: an error, or the cookies of the response. -/
  httpGet : String → Except String (List Cookie)
  /-- Result of `url.Parse(s)`. -/
  urlParse : String → Except String String
  /-- Result of `websocket.DialConfig(c)`: the error, if any. -/
  dial : WsConfig → Option String

/-! ## Operations -/

/-- Method `Inbox.Close`: `close(in.stop); return in.err`. Closing a channel
that is already closed is a run-time panic. -/
def Inbox.Close (ib : Inbox) : Except String (Option String × Inbox) :=
  if ib.stopClosed then .error "close of closed channel"
  else .ok (ib.err, { ib with stopClosed := true })

/-- Method `Inbox.Error`. -/
def Inbox.Error (ib : Inbox) : Option String := ib.err

/-- Method `Inbox.getSessionInfo`: returns the updated record, the trace and
the returned error. -/
def Inbox.getSessionInfo (env : Env) (ib : Inbox) : Inbox × List Act × Option String :=
  let url := "https://" ++ ib.conf.Hostname
  match env.httpGet url with
  | .error e => (ib, [Act.httpGet url], some ("session creation error [" ++ e ++ "] "))
  | .ok cookies =>
    let ib1 :=
      match cookies.find? (fun c => c.Name == "JSESSIONID") with
      | some c => { ib with sessionCookie := c.Value }
      | none => ib
    if ib1.sessionCookie = "" then
      (ib1, [Act.httpGet url],
        some "seems the headers dont have a JSESSION cookie in HTTP response")
    else (ib1, [Act.httpGet url], none)

/-- Method `Inbox.parseurl`, applied to the already formatted text:
`u, in.err = url.Parse(...)`. -/
def Inbox.parseurl (env : Env) (ib : Inbox) (s : String) : Option String × Inbox :=
  match env.urlParse s with
  | .ok u => (some u, { ib with err := none })
  | .error e => (none, { ib with err := some e })

/-- Method `Inbox.createSocket`. -/
def Inbox.createSocket (env : Env) (ib : Inbox) : Inbox × List Act × Option String :=
  let h : Header := []
  let h := h.Add "User-Agent" ib.conf.Agent
  let h := h.Add "Cookie" ("JSESSIONID=" ++ ib.sessionCookie)
  let l := ib.parseurl env ("wss://" ++ ib.conf.Hostname ++ "/ws/fetchpublic")
  let o := l.2.parseurl env ("https://" ++ ib.conf.Hostname)
  let c : WsConfig := { Location := l.1, Origin := o.1, Header := h, Version := 13 }
  let ib2 := o.2
  if ib2.err.isSome then (ib2, [], ib2.err)
  else
    let e := env.dial c
    ({ ib2 with err := e }, [Act.wsDial c], e)

/-- Result of `New`: the trace and the returned pair (client or error). -/
structure NewResult where
  acts : List Act
  result : Except String Inbox

/-- Function `New`; a nil `conf` is `none`. -/
def New (env : Env) (inboxName : String) (conf : Option Config) : NewResult :=
  let conf :=
    match conf with
    | none => { Agent := DefaultUserAgent, Hostname := DefaultHostname }
    | some c => c
  let ib : Inbox :=
    { conf := conf, sessionCookie := "", inboxName := inboxName, stopClosed := false,
      err := none }
  let s := ib.getSessionInfo env
  match s.2.2 with
  | some e => { acts := s.2.1, result := .error e }
  | none =>
    let k := s.1.createSocket env
    match k.2.2 with
    | some e => { acts := s.2.1 ++ k.2.1, result := .error e }
    | none => { acts := s.2.1 ++ k.2.1 ++ [Act.goRun], result := .ok k.1 }

/-- The call `http.NewRequest(method, url, nil)`: it fails exactly when the
URL does not parse; the request it builds has an empty header map. -/
def NewRequest (parse : String → Except String String) (method url : String) :
    Except String Request :=
  match parse url with
  | .error e => .error e
  | .ok u => .ok { Method := method, URL := u, Header := [] }

/-- Result of `fetchFullMessage`: the request handed to
`http.DefaultClient.Do`, if one was, and the returned pair. -/
structure FetchResult where
  issued : Option Request
  result : Except String Response

/-- Method `Inbox.fetchFullMessage`; `o` is what `http.DefaultClient.Do`
answers. The header map `h` is filled and then not used. -/
def Inbox.fetchFullMessage (parse : String → Except String String) (ib : Inbox)
    (name : String) (o : Except String Response) : FetchResult :=
  let h : Header := []
  let h := h.Add "User-Agent" ib.conf.Agent
  let _h := h.Add "Cookie" ("JSESSIONID=" ++ ib.sessionCookie)
  match NewRequest parse "GET" name with
  | .error e => { issued := none, result := .error ("get: " ++ e) }
  | .ok r => { issued := some r, result := o }

/-- The trace of one `fetchFullMessage` call. -/
def FetchResult.acts (fr : FetchResult) : List Act :=
  match fr.issued with
  | some r => [Act.httpDo r]
  | none => []

/-- Method `Inbox.formatMessageUrl`. -/
def Inbox.formatMessageUrl (ib : Inbox) (id : Val) : String :=
  "https://" ++ ib.conf.Hostname ++ "/fetch_public?msgid=" ++ id.sprintS

/-- One input of the delivery loop. -/
inductive Ev where
  /-- Another goroutine calls `in.Close()` before the loop reaches its next
  `select`. -/
  | close
  /-- The loop takes the `default` branch: `r` is what `Receive` does and `o`
  is what the HTTP client answers if a request is issued in this iteration. -/
  | frame (r : Recv) (o : Except String Response)

/-- How `run` left its loop. -/
inductive Exit where
  /-- The statement `return` of `case <-in.stop`. -/
  | stopSignal
  /-- The statement `return` after a failed fetch. -/
  | fetchFailed
  /-- The loop condition `in.err == nil` was false. -/
  | loopCondition
  /-- A panic of `Close` took the program down. -/
  | crashed
deriving DecidableEq, Repr

/-- Result of `run` on a finite list of inputs: the record, the trace, and the
way the loop was left (`none`: the loop is blocked in `Receive`, waiting for
the next input). -/
structure RunResult where
  inbox : Inbox
  acts : List Act
  exit : Option Exit
deriving DecidableEq, Repr

/-- Put earlier trace entries in front of a result. -/
def RunResult.after (pre : List Act) (r : RunResult) : RunResult :=
  { r with acts := pre ++ r.acts }

/-- The `for in.err == nil { select { ... } }` loop of `run`, with the
deferred `close(in.mailReceiver)` executed on every way out. The `select`
takes `case <-in.stop` exactly when the stop channel is closed (nothing is
ever sent on it) and the `default` branch otherwise. -/
def runLoop (parse : String → Except String String) (ib : Inbox) (data : GoMap)
    (evs : List Ev) : RunResult :=
  if ib.err.isSome then
    { inbox := ib, acts := [Act.closeConduit], exit := some Exit.loopCondition }
  else if ib.stopClosed then
    { inbox := ib, acts := [Act.closeConduit], exit := some Exit.stopSignal }
  else
    match evs with
    | [] => { inbox := ib, acts := [], exit := none }
    | Ev.close :: rest =>
      match ib.Close with
      | .error _ => { inbox := ib, acts := [], exit := some Exit.crashed }
      | .ok res => runLoop parse res.2 data rest
    | Ev.frame r o :: rest =>
      let data1 := mapDelete data "id"
      let ib1 : Inbox := { ib with err := r.err }
      let data2 := r.stored.store data1
      match data2 "id" with
      | none => runLoop parse ib1 data2 rest
      | some id =>
        let fr := ib1.fetchFullMessage parse (ib1.formatMessageUrl id) o
        match fr.result with
        | .error e =>
          { inbox := { ib1 with err := some e }, acts := fr.acts ++ [Act.closeConduit],
            exit := some Exit.fetchFailed }
        | .ok resp =>
          let ib2 : Inbox := { ib1 with err := none }
          let msg := resp.Body
          if msg.Data.Parts.length = 0 then
            (runLoop parse ib2 data2 rest).after fr.acts
          else
            (runLoop parse ib2 data2 rest).after (fr.acts ++ [Act.publish msg])

/-- Method `Inbox.run`: the subscribe command is sent (a failure of the send
is only logged), a fresh stop channel is stored in `in.stop`, and the loop
starts on an empty decode target. -/
def Inbox.run (parse : String → Except String String) (ib : Inbox) (evs : List Ev) :
    RunResult :=
  let x := [("cmd", "sub"), ("channel", ib.inboxName)]
  let ib1 : Inbox := { ib with stopClosed := false }
  (runLoop parse ib1 mapEmpty evs).after [Act.wsSend x]

/-- The Messages published on the conduit, in order. -/
def published : List Act → List Message
  | [] => []
  | Act.publish m :: rest => m :: published rest
  | _ :: rest => published rest

/-! ## Vocabulary of the properties -/

/-- The keys that a received frame stored into the decode target. -/
def Decoded.keys : Decoded → List String
  | .untouched => []
  | .null => []
  | .object kvs => kvs.map (fun kv => kv.1)

/-- The order-preserving filter of the ordering property: the fetched
messages of the frames that carry an `id` and whose message has at least one
body part, in arrival order. -/
def acceptedMessages : List Ev → List Message
  | [] => []
  | Ev.frame r (.ok resp) :: rest =>
    if "id" ∈ r.stored.keys ∧ 1 ≤ resp.Body.Data.Parts.length then
      resp.Body :: acceptedMessages rest
    else acceptedMessages rest
  | _ :: rest => acceptedMessages rest

/-- Shape of a finished execution: it did not crash, its trace ends with the
only `closeConduit`, and a stop-signal exit leaves no recorded error. -/
def RunResult.closedOnce (res : RunResult) : Prop :=
  ∀ x, res.exit = some x →
    x ≠ Exit.crashed ∧
    (∃ pre, res.acts = pre ++ [Act.closeConduit] ∧ Act.closeConduit ∉ pre) ∧
    (x = Exit.stopSignal → res.inbox.err = none)

/-! ## Concrete inputs -/

/-- A `url.Parse` that accepts every text. -/
def parseAll : String → Except String String := fun s => .ok s

/-- A client as `New` returns it. -/
def sampleInbox : Inbox :=
  { conf := { Agent := "agent", Hostname := "host" }, sessionCookie := "S1",
    inboxName := "test", stopClosed := false, err := none }

def samplePart : Part :=
  { Headers := { Contenttype := "text/plain", Contenttransferencoding := "7bit" },
    Body := "hi" }

/-- A message with two body parts. -/
def sampleMessage : Message :=
  { Message.zero with Data := { Message.zero.Data with Parts := [samplePart, samplePart] } }

/-- A frame with an `id` whose fetch answers `sampleMessage`. -/
def frameAbc : Ev :=
  Ev.frame { err := none, stored := .object [("id", .str "abc123")] }
    (.ok { Body := sampleMessage })

/-- A frame with an `id` whose fetch answers a message without body parts. -/
def frameEmpty : Ev :=
  Ev.frame { err := none, stored := .object [("id", .str "empty1")] }
    (.ok { Body := Message.zero })

/-- A control frame: a JSON object without `id`. -/
def frameAck : Recv :=
  { err := none, stored := .object [("status", .str "ok")] }

/-- A frame on which `Receive` reports an error after it stored the `id` key:
the object has an `id` and a number that does not fit a float64. -/
def frameBadNumber : Recv :=
  { err := some "json: cannot unmarshal number 1e999 into Go value of type float64",
    stored := .object [("id", .str "abc123"), ("n", .other "%!s(<nil>)")] }

/-- A service that answers the bootstrap GET of `www.mailinator.com` with a
session cookie, knows no other host, and accepts the handshake. -/
def sampleEnv : Env :=
  { httpGet := fun url =>
      if url = "https://www.mailinator.com" then
        .ok [{ Name := "AWSALB", Value := "x" }, { Name := "JSESSIONID", Value := "S1" }]
      else .error "no such host",
    urlParse := parseAll,
    dial := fun _ => none }

/-- A service whose bootstrap response carries no session cookie. -/
def envNoCookie : Env :=
  { httpGet := fun _ => .ok [{ Name := "AWSALB", Value := "x" }],
    urlParse := parseAll,
    dial := fun _ => none }

/-! ## Lemmas on the decode target -/

theorem foldl_mapSet_none (k : String) (kvs : List (String × Val)) :
    ∀ m : GoMap, (kvs.foldl (fun acc kv => mapSet acc kv.1 kv.2) m) k = none ↔
      (m k = none ∧ k ∉ kvs.map (fun kv => kv.1)) := by
  induction kvs with
  | nil => intro m; simp
  | cons kv rest ih =>
    intro m
    rw [List.foldl_cons, ih]
    by_cases hk : k = kv.1
    · simp [mapSet, hk]
    · simp [mapSet, hk]

/-- After `delete(data, "id")` and a receive, `data["id"]` is absent exactly
when the frame stored no `id` key. -/
theorem store_delete_id_none (d : Decoded) (data : GoMap) :
    (d.store (mapDelete data "id")) "id" = none ↔ "id" ∉ d.keys := by
  cases d with
  | untouched => simp [Decoded.store, Decoded.keys, mapDelete]
  | null => simp [Decoded.store, Decoded.keys, mapEmpty]
  | object kvs =>
    simp only [Decoded.store, Decoded.keys]
    rw [foldl_mapSet_none]
    simp [mapDelete]

/-! ## Lemmas on the trace -/

theorem published_append (a b : List Act) :
    published (a ++ b) = published a ++ published b := by
  induction a with
  | nil => rfl
  | cons x rest ih => cases x <;> simp [published, ih]

theorem published_fetch_acts (fr : FetchResult) : published fr.acts = [] := by
  unfold FetchResult.acts
  cases fr.issued <;> rfl

theorem fetch_acts_no_publish (fr : FetchResult) (m : Message) :
    Act.publish m ∉ fr.acts := by
  unfold FetchResult.acts
  cases fr.issued <;> simp

theorem fetch_acts_no_close (fr : FetchResult) : Act.closeConduit ∉ fr.acts := by
  unfold FetchResult.acts
  cases fr.issued <;> simp

theorem fetch_result_of_parse (parse : String → Except String String) (ib : Inbox)
    (name : String) (o : Except String Response) (hparse : ∀ u, ∃ v, parse u = .ok v) :
    (ib.fetchFullMessage parse name o).result = o := by
  obtain ⟨v, hv⟩ := hparse name
  simp [Inbox.fetchFullMessage, NewRequest, hv]

theorem closedOnce_after (pre : List Act) (res : RunResult) (hpre : Act.closeConduit ∉ pre)
    (h : res.closedOnce) : (res.after pre).closedOnce := by
  intro x hx
  obtain ⟨hc, ⟨p, hp, hnot⟩, hs⟩ := h x hx
  refine ⟨hc, ⟨pre ++ p, ?_, ?_⟩, hs⟩
  · simp only [RunResult.after, hp, List.append_assoc]
  · simp [hpre, hnot]

/-! ## Lemmas on the loop -/

theorem runLoop_publish_parts (parse : String → Except String String) (evs : List Ev) :
    ∀ (ib : Inbox) (data : GoMap) (m : Message),
      Act.publish m ∈ (runLoop parse ib data evs).acts → 1 ≤ m.Data.Parts.length := by
  induction evs with
  | nil =>
    intro ib data m h
    unfold runLoop at h
    split_ifs at h <;> simp at h
  | cons ev rest ih =>
    intro ib data m h
    unfold runLoop at h
    split_ifs at h with h1 h2
    · simp at h
    · simp at h
    · cases ev with
      | close =>
        simp only at h
        split at h
        · simp at h
        · exact ih _ _ _ h
      | frame r o =>
        simp only at h
        split at h
        · exact ih _ _ _ h
        · split at h
          · simp [fetch_acts_no_publish] at h
          · split_ifs at h with h3
            · simp only [RunResult.after, List.mem_append] at h
              rcases h with h | h
              · exact absurd h (fetch_acts_no_publish _ _)
              · exact ih _ _ _ h
            · simp only [RunResult.after, List.mem_append, List.mem_singleton] at h
              rcases h with (h | h) | h
              · exact absurd h (fetch_acts_no_publish _ _)
              · cases h
                omega
              · exact ih _ _ _ h

theorem runLoop_closedOnce (parse : String → Except String String) (evs : List Ev) :
    ∀ (ib : Inbox) (data : GoMap), (runLoop parse ib data evs).closedOnce := by
  induction evs with
  | nil =>
    intro ib data
    unfold runLoop
    split_ifs with h1 h2
    · intro x hx
      cases hx
      exact ⟨by decide, ⟨[], rfl, by simp⟩, by intro hx; cases hx⟩
    · intro x hx
      cases hx
      exact ⟨by decide, ⟨[], rfl, by simp⟩, fun _ => by simpa using h1⟩
    · intro x hx
      cases hx
  | cons ev rest ih =>
    intro ib data
    unfold runLoop
    split_ifs with h1 h2
    · intro x hx
      cases hx
      exact ⟨by decide, ⟨[], rfl, by simp⟩, by intro hx; cases hx⟩
    · intro x hx
      cases hx
      exact ⟨by decide, ⟨[], rfl, by simp⟩, fun _ => by simpa using h1⟩
    · cases ev with
      | close =>
        have hc : ib.Close = .ok (ib.err, { ib with stopClosed := true }) := by
          simp [Inbox.Close, h2]
        simp only [hc]
        exact ih _ _
      | frame r o =>
        simp only
        split
        · exact ih _ _
        · split
          · intro x hx
            cases hx
            exact ⟨by decide, ⟨_, rfl, fetch_acts_no_close _⟩, by intro hx; cases hx⟩
          · split_ifs with hp
            · exact closedOnce_after _ _ (fetch_acts_no_close _) (ih _ _)
            · exact closedOnce_after _ _ (by simp [fetch_acts_no_close]) (ih _ _)

theorem runLoop_published (parse : String → Except String String)
    (hparse : ∀ u, ∃ v, parse u = .ok v) (evs : List Ev) :
    ∀ (ib : Inbox) (data : GoMap), ib.err = none → ib.stopClosed = false →
      (∀ ev ∈ evs, ∃ r resp, ev = Ev.frame r (.ok resp) ∧ r.err = none) →
      published (runLoop parse ib data evs).acts = acceptedMessages evs := by
  induction evs with
  | nil =>
    intro ib data herr hstop _
    rw [runLoop]
    simp [herr, hstop, published, acceptedMessages]
  | cons ev rest ih =>
    intro ib data herr hstop hev
    obtain ⟨r, resp, rfl, hr⟩ := hev ev (List.mem_cons_self _ _)
    have hrest : ∀ ev ∈ rest, ∃ r resp, ev = Ev.frame r (.ok resp) ∧ r.err = none :=
      fun ev h => hev ev (List.mem_cons_of_mem _ h)
    obtain ⟨c, s, n, st, e⟩ := ib
    simp only at herr hstop
    subst herr hstop
    rw [runLoop]
    simp only [Option.isSome_none, Bool.false_eq_true, if_false, hr]
    cases hid : (r.stored.store (mapDelete data "id")) "id" with
    | none =>
      have hk := (store_delete_id_none r.stored data).mp hid
      simp only [acceptedMessages, hk, false_and, if_false]
      exact ih _ _ rfl rfl hrest
    | some id =>
      have hk : "id" ∈ r.stored.keys := by
        by_contra hn
        rw [(store_delete_id_none r.stored data).mpr hn] at hid
        cases hid
      simp only [fetch_result_of_parse parse _ _ _ hparse]
      by_cases hp : resp.Body.Data.Parts.length = 0
      · have hnp : ¬ (1 ≤ resp.Body.Data.Parts.length) := by omega
        simp only [hp, if_true, acceptedMessages, hk, hnp, and_false, if_false,
          RunResult.after, published_append, published_fetch_acts, List.nil_append]
        exact ih _ _ rfl rfl hrest
      · have hnp : 1 ≤ resp.Body.Data.Parts.length := by omega
        simp only [hp, if_false, acceptedMessages, hk, hnp, and_self, if_true,
          RunResult.after, published_append, published_fetch_acts, List.nil_append,
          published, List.cons_append]
        rw [ih _ _ rfl rfl hrest]

/-- A failed receive that leaves no `id` in the decode target ends the loop at
the next test of the loop condition, with the receive error recorded. -/
theorem receive_error_without_id_ends_loop (parse : String → Except String String)
    (ib : Inbox) (data : GoMap) (r : Recv) (o : Except String Response) (rest : List Ev)
    (e : String) (herr : ib.err = none) (hstop : ib.stopClosed = false)
    (hrecv : r.err = some e) (hid : "id" ∉ r.stored.keys) :
    runLoop parse ib data (Ev.frame r o :: rest) =
      { inbox := { ib with err := some e }, acts := [Act.closeConduit],
        exit := some Exit.loopCondition } := by
  have hnone := (store_delete_id_none r.stored data).mpr hid
  obtain ⟨c, s, n, st, er⟩ := ib
  simp only at herr hstop
  subst herr hstop
  rw [runLoop]
  simp only [Option.isSome_none, Bool.false_eq_true, if_false]
  rw [hnone, hrecv, runLoop.eq_def]
  simp

/-- Every request that `fetchFullMessage` issues is a GET with an empty header
map, whatever the client and the URL. -/
theorem fetchFullMessage_issued_header (parse : String → Except String String) (ib : Inbox)
    (name : String) (o : Except String Response) (r : Request)
    (h : (ib.fetchFullMessage parse name o).issued = some r) :
    r.Method = "GET" ∧ r.Header = [] := by
  unfold Inbox.fetchFullMessage NewRequest at h
  cases hp : parse name with
  | error e => simp [hp] at h
  | ok u =>
    simp only [hp, Option.some.injEq] at h
    subst h
    exact ⟨rfl, rfl⟩

/-! ## Lemmas on construction -/

/-- The body of `New` after the choice of the configuration. -/
theorem New_eq (env : Env) (inboxName : String) (conf : Option Config) :
    New env inboxName conf =
      match (Inbox.getSessionInfo env
          { conf := conf.getD { Agent := DefaultUserAgent, Hostname := DefaultHostname },
            sessionCookie := "", inboxName := inboxName, stopClosed := false,
            err := none }).2.2 with
      | some e =>
        { acts := (Inbox.getSessionInfo env
            { conf := conf.getD { Agent := DefaultUserAgent, Hostname := DefaultHostname },
              sessionCookie := "", inboxName := inboxName, stopClosed := false,
              err := none }).2.1,
          result := .error e }
      | none =>
        match (Inbox.createSocket env (Inbox.getSessionInfo env
            { conf := conf.getD { Agent := DefaultUserAgent, Hostname := DefaultHostname },
              sessionCookie := "", inboxName := inboxName, stopClosed := false,
              err := none }).1).2.2 with
        | some e =>
          { acts := (Inbox.getSessionInfo env
              { conf := conf.getD { Agent := DefaultUserAgent, Hostname := DefaultHostname },
                sessionCookie := "", inboxName := inboxName, stopClosed := false,
                err := none }).2.1 ++
              (Inbox.createSocket env (Inbox.getSessionInfo env
                { conf := conf.getD { Agent := DefaultUserAgent, Hostname := DefaultHostname },
                  sessionCookie := "", inboxName := inboxName, stopClosed := false,
                  err := none }).1).2.1,
            result := .error e }
        | none =>
          { acts := (Inbox.getSessionInfo env
              { conf := conf.getD { Agent := DefaultUserAgent, Hostname := DefaultHostname },
                sessionCookie := "", inboxName := inboxName, stopClosed := false,
                err := none }).2.1 ++
              (Inbox.createSocket env (Inbox.getSessionInfo env
                { conf := conf.getD { Agent := DefaultUserAgent, Hostname := DefaultHostname },
                  sessionCookie := "", inboxName := inboxName, stopClosed := false,
                  err := none }).1).2.1 ++ [Act.goRun],
            result := .ok (Inbox.createSocket env (Inbox.getSessionInfo env
              { conf := conf.getD { Agent := DefaultUserAgent, Hostname := DefaultHostname },
                sessionCookie := "", inboxName := inboxName, stopClosed := false,
                err := none }).1).1 } := by
  cases conf <;> rfl

theorem getSessionInfo_acts (env : Env) (ib : Inbox) :
    (ib.getSessionInfo env).2.1 = [Act.httpGet ("https://" ++ ib.conf.Hostname)] := by
  unfold Inbox.getSessionInfo
  simp only
  cases env.httpGet ("https://" ++ ib.conf.Hostname) with
  | error e => rfl
  | ok cs =>
    simp only
    split_ifs <;> rfl

theorem getSessionInfo_conf (env : Env) (ib : Inbox) :
    (ib.getSessionInfo env).1.conf = ib.conf := by
  unfold Inbox.getSessionInfo
  simp only
  cases env.httpGet ("https://" ++ ib.conf.Hostname) with
  | error e => rfl
  | ok cs =>
    simp only
    cases cs.find? (fun c => c.Name == "JSESSIONID") <;> simp only <;> split_ifs <;> rfl

theorem createSocket_conf (env : Env) (ib : Inbox) :
    (ib.createSocket env).1.conf = ib.conf := by
  unfold Inbox.createSocket Inbox.parseurl
  simp only
  cases env.urlParse ("wss://" ++ ib.conf.Hostname ++ "/ws/fetchpublic") <;>
    cases env.urlParse ("https://" ++ ib.conf.Hostname) <;> simp

theorem getSessionInfo_fails (env : Env) (ib : Inbox) (hfresh : ib.sessionCookie = "")
    (h : (∃ e, env.httpGet ("https://" ++ ib.conf.Hostname) = .error e) ∨
      (∃ cs, env.httpGet ("https://" ++ ib.conf.Hostname) = .ok cs ∧
        ∀ c ∈ cs, c.Name ≠ "JSESSIONID")) :
    ∃ e, (ib.getSessionInfo env).2.2 = some e ∧
      (ib.getSessionInfo env).2.1 = [Act.httpGet ("https://" ++ ib.conf.Hostname)] := by
  rcases h with ⟨e, he⟩ | ⟨cs, hcs, hno⟩
  · refine ⟨"session creation error [" ++ e ++ "] ", ?_, getSessionInfo_acts env ib⟩
    unfold Inbox.getSessionInfo
    simp only [he]
  · have hfind : cs.find? (fun c => c.Name == "JSESSIONID") = none := by
      rw [List.find?_eq_none]
      intro c hc
      simpa using hno c hc
    refine ⟨"seems the headers dont have a JSESSION cookie in HTTP response", ?_,
      getSessionInfo_acts env ib⟩
    unfold Inbox.getSessionInfo
    simp only [hcs, hfind, hfresh, if_true]

/-! ## Properties of the delivery loop -/

/-- C1: whatever frames, fetch results and stop events are fed to `Inbox.run`,
every Message it publishes on `mailReceiver` has at least one body part. -/
theorem run_publishes_only_messages_with_parts (parse : String → Except String String)
    (ib : Inbox) (evs : List Ev) (m : Message)
    (h : Act.publish m ∈ (ib.run parse evs).acts) : 1 ≤ m.Data.Parts.length := by
  unfold Inbox.run at h
  simp only [RunResult.after, List.mem_append, List.mem_singleton] at h
  rcases h with h | h
  · cases h
  · exact runLoop_publish_parts parse evs _ _ m h

theorem run_publishes_only_messages_with_parts_witness :
    Act.publish sampleMessage ∈
        (sampleInbox.run parseAll [frameEmpty, frameAbc, Ev.close]).acts ∧
      1 ≤ sampleMessage.Data.Parts.length :=
  ⟨by decide,
    run_publishes_only_messages_with_parts parseAll sampleInbox
      [frameEmpty, frameAbc, Ev.close] sampleMessage (by decide)⟩

/-- C2: at any point of the loop of `Inbox.run` (any content `data` left in
the decode target by earlier frames, an earlier `id` included), a frame that
is received without error and stores no `id` key is discarded: the loop goes
on with the next input, the record unchanged, and the frame adds nothing to
the trace, so no fetch is attempted and no Message is published for it. -/
theorem frame_without_id_is_discarded (parse : String → Except String String) (ib : Inbox)
    (data : GoMap) (r : Recv) (o : Except String Response) (rest : List Ev)
    (herr : ib.err = none) (hstop : ib.stopClosed = false)
    (hrecv : r.err = none) (hid : "id" ∉ r.stored.keys) :
    runLoop parse ib data (Ev.frame r o :: rest) =
        runLoop parse ib (r.stored.store (mapDelete data "id")) rest ∧
      (runLoop parse ib data [Ev.frame r o]).acts = [] := by
  have hnone := (store_delete_id_none r.stored data).mpr hid
  obtain ⟨c, s, n, st, e⟩ := ib
  simp only at herr hstop
  subst herr hstop
  constructor
  · rw [runLoop]
    simp only [Option.isSome_none, Bool.false_eq_true, if_false]
    rw [hnone, hrecv]
  · rw [runLoop]
    simp only [Option.isSome_none, Bool.false_eq_true, if_false]
    rw [hnone, hrecv, runLoop]
    simp

theorem frame_without_id_is_discarded_witness :
    sampleInbox.err = none ∧ sampleInbox.stopClosed = false ∧ frameAck.err = none ∧
      "id" ∉ frameAck.stored.keys ∧
      (runLoop parseAll sampleInbox (mapSet mapEmpty "id" (.str "old"))
          (Ev.frame frameAck (.ok { Body := sampleMessage }) :: [frameAbc]) =
        runLoop parseAll sampleInbox
          (frameAck.stored.store (mapDelete (mapSet mapEmpty "id" (.str "old")) "id"))
          [frameAbc] ∧
      (runLoop parseAll sampleInbox (mapSet mapEmpty "id" (.str "old"))
          [Ev.frame frameAck (.ok { Body := sampleMessage })]).acts = []) :=
  ⟨rfl, rfl, rfl, by decide,
    frame_without_id_is_discarded parseAll sampleInbox (mapSet mapEmpty "id" (.str "old"))
      frameAck (.ok { Body := sampleMessage }) [frameAbc] rfl rfl rfl (by decide)⟩

/-- C3: when every frame is received without error and every fetch succeeds,
the Messages published by `Inbox.run` are exactly, in arrival order, the
fetched messages of the frames that carry an `id` and have at least one body
part. -/
theorem run_published_in_order (parse : String → Except String String) (ib : Inbox)
    (evs : List Ev) (hparse : ∀ u, ∃ v, parse u = .ok v) (herr : ib.err = none)
    (hev : ∀ ev ∈ evs, ∃ r resp, ev = Ev.frame r (.ok resp) ∧ r.err = none) :
    published (ib.run parse evs).acts = acceptedMessages evs := by
  unfold Inbox.run
  simp only [RunResult.after, published_append, published, List.nil_append]
  exact runLoop_published parse hparse evs _ _ herr rfl hev

theorem run_published_in_order_witness :
    (∀ u, ∃ v, parseAll u = .ok v) ∧ sampleInbox.err = none ∧
      published (sampleInbox.run parseAll
          [frameAbc, frameEmpty, Ev.frame frameAck (.ok { Body := sampleMessage }),
            frameAbc]).acts =
        [sampleMessage, sampleMessage] :=
  ⟨fun u => ⟨u, rfl⟩, rfl,
    (run_published_in_order parseAll sampleInbox
      [frameAbc, frameEmpty, Ev.frame frameAck (.ok { Body := sampleMessage }), frameAbc]
      (fun u => ⟨u, rfl⟩) rfl
      (by
        intro ev hev
        simp only [List.mem_cons, List.mem_singleton, List.not_mem_nil, or_false] at hev
        rcases hev with rfl | rfl | rfl | rfl <;> exact ⟨_, _, rfl, rfl⟩)).trans
      (by decide)⟩

/-- C6: at any point of the loop of `Inbox.run`, when the received frame
leaves an `id` in the decode target and `fetchFullMessage` returns the error
`e`, the loop returns at once: the recorded error is `e`, the trace of the
frame is the attempted request (if one was issued) followed by the close of
the conduit, no Message is published, and the inputs after the frame are never
looked at. -/
theorem fetch_error_ends_loop (parse : String → Except String String) (ib : Inbox)
    (data : GoMap) (r : Recv) (o : Except String Response) (rest : List Ev) (id : Val)
    (e : String) (herr : ib.err = none) (hstop : ib.stopClosed = false)
    (hid : (r.stored.store (mapDelete data "id")) "id" = some id)
    (hfail : (Inbox.fetchFullMessage parse { ib with err := r.err }
        (Inbox.formatMessageUrl { ib with err := r.err } id) o).result = .error e) :
    runLoop parse ib data (Ev.frame r o :: rest) =
        { inbox := { ib with err := some e },
          acts := (Inbox.fetchFullMessage parse { ib with err := r.err }
              (Inbox.formatMessageUrl { ib with err := r.err } id) o).acts ++
            [Act.closeConduit],
          exit := some Exit.fetchFailed } ∧
      (runLoop parse ib data (Ev.frame r o :: rest)).inbox.Error = some e ∧
      (∀ m, Act.publish m ∉ (runLoop parse ib data (Ev.frame r o :: rest)).acts) ∧
      runLoop parse ib data (Ev.frame r o :: rest) = runLoop parse ib data [Ev.frame r o] := by
  have key : ∀ tail : List Ev, runLoop parse ib data (Ev.frame r o :: tail) =
      { inbox := { ib with err := some e },
        acts := (Inbox.fetchFullMessage parse { ib with err := r.err }
            (Inbox.formatMessageUrl { ib with err := r.err } id) o).acts ++
          [Act.closeConduit],
        exit := some Exit.fetchFailed } := by
    intro tail
    obtain ⟨c, s, n, st, er⟩ := ib
    simp only at herr hstop hfail ⊢
    subst herr hstop
    rw [runLoop]
    simp only [Option.isSome_none, Bool.false_eq_true, if_false, hid, hfail]
  refine ⟨key rest, ?_, ?_, ?_⟩
  · rw [key rest]
    rfl
  · intro m
    rw [key rest]
    simp [fetch_acts_no_publish]
  · rw [key rest, key []]

theorem fetch_error_ends_loop_witness :
    sampleInbox.err = none ∧ sampleInbox.stopClosed = false ∧
      (runLoop parseAll sampleInbox mapEmpty
          [Ev.frame { err := none, stored := .object [("id", .str "abc123")] }
            (.error "connection refused"), frameAbc]).acts =
        [Act.httpDo
            { Method := "GET", URL := "https://host/fetch_public?msgid=abc123", Header := [] },
          Act.closeConduit] ∧
      (runLoop parseAll sampleInbox mapEmpty
          [Ev.frame { err := none, stored := .object [("id", .str "abc123")] }
            (.error "connection refused"), frameAbc]).inbox.Error =
        some "connection refused" :=
  ⟨rfl, rfl,
    (congrArg RunResult.acts
      (fetch_error_ends_loop parseAll sampleInbox mapEmpty
        { err := none, stored := .object [("id", .str "abc123")] }
        (.error "connection refused") [frameAbc] (.str "abc123") "connection refused"
        rfl rfl (by decide) rfl).1).trans (by decide),
    (fetch_error_ends_loop parseAll sampleInbox mapEmpty
      { err := none, stored := .object [("id", .str "abc123")] }
      (.error "connection refused") [frameAbc] (.str "abc123") "connection refused"
      rfl rfl (by decide) rfl).2.1⟩

/-- C10: every finished execution of `Inbox.run` (left through the stop
signal, the loop condition after a receive error, or the return after a fetch
error) has a trace that ends with the close of the conduit and contains no
other close, so that every publish precedes the one close; and an execution
left through the stop signal has no recorded error. -/
theorem run_closes_conduit_once (parse : String → Except String String) (ib : Inbox)
    (evs : List Ev) (x : Exit) (h : (ib.run parse evs).exit = some x) :
    x ≠ Exit.crashed ∧
      (∃ pre, (ib.run parse evs).acts = pre ++ [Act.closeConduit] ∧
        Act.closeConduit ∉ pre) ∧
      (ib.run parse evs).acts.count Act.closeConduit = 1 ∧
      (x = Exit.stopSignal → (ib.run parse evs).inbox.Error = none) := by
  have hloop := runLoop_closedOnce parse evs { ib with stopClosed := false } mapEmpty
  unfold Inbox.run at h ⊢
  simp only [RunResult.after] at h ⊢
  obtain ⟨hx, ⟨pre, hpre, hnot⟩, hs⟩ := hloop x h
  have hnot2 :
      Act.closeConduit ∉ [Act.wsSend [("cmd", "sub"), ("channel", ib.inboxName)]] ++ pre := by
    simp [hnot]
  refine ⟨hx, ⟨_ ++ pre, by rw [hpre, List.append_assoc], hnot2⟩, ?_, hs⟩
  rw [hpre, ← List.append_assoc, List.count_append, List.count_eq_zero_of_not_mem hnot2]
  simp

theorem run_closes_conduit_once_witness :
    (sampleInbox.run parseAll [frameAbc, Ev.close, frameAbc]).exit = some Exit.stopSignal ∧
      (sampleInbox.run parseAll [frameAbc, Ev.close, frameAbc]).acts.count Act.closeConduit = 1 ∧
      (sampleInbox.run parseAll [frameAbc, Ev.close, frameAbc]).inbox.Error = none :=
  ⟨by decide,
    (run_closes_conduit_once parseAll sampleInbox [frameAbc, Ev.close, frameAbc]
      Exit.stopSignal (by decide)).2.2.1,
    (run_closes_conduit_once parseAll sampleInbox [frameAbc, Ev.close, frameAbc]
      Exit.stopSignal (by decide)).2.2.2 rfl⟩

/-- C7 (at the failing input): `Receive` reports an error after it stored
the `id` key. The loop does not stop there: it issues the fetch, the fetch
result overwrites the recorded error with nil, the Message is published, and
the loop goes on waiting with the conduit open. -/
theorem receive_error_with_id_is_overwritten :
    (sampleInbox.run parseAll [Ev.frame frameBadNumber (.ok { Body := sampleMessage })]) =
      { inbox := sampleInbox,
        acts :=
          [Act.wsSend [("cmd", "sub"), ("channel", "test")],
            Act.httpDo
              { Method := "GET", URL := "https://host/fetch_public?msgid=abc123", Header := [] },
            Act.publish sampleMessage],
        exit := none } ∧
      (sampleInbox.run parseAll
          [Ev.frame frameBadNumber (.ok { Body := sampleMessage })]).inbox.Error = none := by
  decide

/-! ## Properties of the stop operation -/

/-- C4 (counterexample): on a client as `New` returns it, `Close` followed by
`Close` does not complete; the second call panics on the closed stop
channel. -/
theorem close_twice_panics :
    (sampleInbox.Close.bind fun first => first.2.Close) = .error "close of closed channel" := by
  rfl

/-- C4 (amended): on a client whose stop channel is open, `Close` completes,
returns the recorded error and leaves the stop channel closed; the loop of
`Inbox.run` that meets this call leaves through the stop branch with the
conduit closed once; any further `Close` on that client panics with close of
closed channel. -/
theorem Close_once_then_panics (ib : Inbox) (hopen : ib.stopClosed = false) :
    ib.Close = .ok (ib.err, { ib with stopClosed := true }) ∧
      Inbox.Close { ib with stopClosed := true } = .error "close of closed channel" ∧
      ∀ (parse : String → Except String String) (data : GoMap) (rest : List Ev),
        ib.err = none →
        runLoop parse ib data (Ev.close :: rest) =
          { inbox := { ib with stopClosed := true }, acts := [Act.closeConduit],
            exit := some Exit.stopSignal } := by
  refine ⟨by simp [Inbox.Close, hopen], by simp [Inbox.Close], ?_⟩
  intro parse data rest herr
  obtain ⟨c, s, n, st, er⟩ := ib
  simp only at herr hopen
  subst herr hopen
  rw [runLoop]
  simp only [Option.isSome_none, Bool.false_eq_true, if_false, Inbox.Close]
  rw [runLoop.eq_def]
  simp

theorem Close_once_then_panics_witness :
    sampleInbox.stopClosed = false ∧
      sampleInbox.Close = .ok (none, { sampleInbox with stopClosed := true }) ∧
      Inbox.Close { sampleInbox with stopClosed := true } = .error "close of closed channel" :=
  ⟨rfl, (Close_once_then_panics sampleInbox rfl).1, (Close_once_then_panics sampleInbox rfl).2.1⟩

/-! ## Properties of the fetcher -/

/-- C5 (at the failing input): the request that `fetchFullMessage` hands to
the HTTP client is a GET of the given URL with an empty header map; it carries
neither the `User-Agent` nor the `Cookie` header that the function prepared. -/
theorem fetchFullMessage_request_has_no_headers :
    ∃ r, (sampleInbox.fetchFullMessage parseAll "https://host/fetch_public?msgid=abc123"
          (.ok { Body := sampleMessage })).issued = some r ∧
      r.Method = "GET" ∧ r.URL = "https://host/fetch_public?msgid=abc123" ∧
      Header.Get r.Header "User-Agent" = none ∧ Header.Get r.Header "Cookie" = none ∧
      Header.Get r.Header "User-Agent" ≠ some sampleInbox.conf.Agent ∧
      Header.Get r.Header "Cookie" ≠ some ("JSESSIONID=" ++ sampleInbox.sessionCookie) :=
  ⟨{ Method := "GET", URL := "https://host/fetch_public?msgid=abc123", Header := [] },
    rfl, rfl, rfl, rfl, rfl, by decide, by decide⟩

/-! ## Properties of construction -/

/-- C8: when the bootstrap request fails, or its response has no cookie
named `JSESSIONID`, `New` returns an error and no client, and its whole trace
is the bootstrap request: no handshake is attempted and `run` is not
started. -/
theorem New_fails_without_session (env : Env) (inboxName : String) (conf : Option Config)
    (h : (∃ e, env.httpGet ("https://" ++
            (conf.getD { Agent := DefaultUserAgent, Hostname := DefaultHostname }).Hostname) =
          .error e) ∨
        (∃ cs, env.httpGet ("https://" ++
            (conf.getD { Agent := DefaultUserAgent, Hostname := DefaultHostname }).Hostname) =
          .ok cs ∧ ∀ c ∈ cs, c.Name ≠ "JSESSIONID")) :
    (∃ e, (New env inboxName conf).result = .error e) ∧
      (New env inboxName conf).acts =
        [Act.httpGet ("https://" ++
          (conf.getD { Agent := DefaultUserAgent, Hostname := DefaultHostname }).Hostname)] ∧
      Act.goRun ∉ (New env inboxName conf).acts ∧
      ∀ c, Act.wsDial c ∉ (New env inboxName conf).acts := by
  obtain ⟨e, he, ha⟩ := getSessionInfo_fails env
    { conf := conf.getD { Agent := DefaultUserAgent, Hostname := DefaultHostname },
      sessionCookie := "", inboxName := inboxName, stopClosed := false, err := none } rfl h
  have hres : (New env inboxName conf).result = .error e ∧
      (New env inboxName conf).acts = [Act.httpGet ("https://" ++
        (conf.getD { Agent := DefaultUserAgent, Hostname := DefaultHostname }).Hostname)] := by
    rw [New_eq]
    simp only [he, ha, and_self]
  refine ⟨⟨e, hres.1⟩, hres.2, ?_, ?_⟩
  · rw [hres.2]; simp
  · intro c; rw [hres.2]; simp

theorem New_fails_without_session_witness :
    (∃ cs, envNoCookie.httpGet ("https://" ++ DefaultHostname) = .ok cs ∧
        ∀ c ∈ cs, c.Name ≠ "JSESSIONID") ∧
      (∃ e, (New envNoCookie "test" none).result = .error e) ∧
      (New envNoCookie "test" none).acts = [Act.httpGet "https://www.mailinator.com"] :=
  ⟨⟨_, rfl, by decide⟩,
    (New_fails_without_session envNoCookie "test" none (Or.inr ⟨_, rfl, by decide⟩)).1,
    (New_fails_without_session envNoCookie "test" none (Or.inr ⟨_, rfl, by decide⟩)).2.1⟩

/-- C9 (counterexample): a supplied configuration with an empty
identification string yields a client whose identification string is empty,
not `DefaultUserAgent`; a supplied configuration with an empty hostname sends
the bootstrap request to the empty host, not to `DefaultHostname`. -/
theorem New_keeps_empty_options :
    (∃ ib, (New sampleEnv "test"
          (some { Agent := "", Hostname := "www.mailinator.com" })).result = .ok ib ∧
        ib.conf.Agent = "" ∧ ib.conf.Agent ≠ DefaultUserAgent) ∧
      (New sampleEnv "test" (some { Agent := "agent", Hostname := "" })).acts =
        [Act.httpGet "https://"] ∧
      Act.httpGet ("https://" ++ DefaultHostname) ∉
        (New sampleEnv "test" (some { Agent := "agent", Hostname := "" })).acts :=
  ⟨⟨{ conf := { Agent := "", Hostname := "www.mailinator.com" }, sessionCookie := "S1",
      inboxName := "test", stopClosed := false, err := none }, rfl, rfl, by decide⟩,
    by decide, by decide⟩

/-- C9 (amended): the client that `New` returns holds `DefaultUserAgent` and
`DefaultHostname` when no configuration is supplied, and the supplied
configuration, field for field as given, otherwise; the bootstrap request goes
to the hostname of that configuration. -/
theorem New_uses_conf_as_given (env : Env) (inboxName : String) (conf : Option Config)
    (ib : Inbox) (h : (New env inboxName conf).result = .ok ib) :
    ib.conf = conf.getD { Agent := DefaultUserAgent, Hostname := DefaultHostname } ∧
      (New env inboxName conf).acts.head? =
        some (Act.httpGet ("https://" ++
          (conf.getD { Agent := DefaultUserAgent, Hostname := DefaultHostname }).Hostname)) := by
  rw [New_eq] at h ⊢
  obtain ⟨ib0, hib⟩ : ∃ ib0 : Inbox, ib0 =
      { conf := conf.getD { Agent := DefaultUserAgent, Hostname := DefaultHostname },
        sessionCookie := "", inboxName := inboxName, stopClosed := false, err := none } :=
    ⟨_, rfl⟩
  have hc : ib0.conf = conf.getD { Agent := DefaultUserAgent, Hostname := DefaultHostname } := by
    rw [hib]
  rw [← hib] at h ⊢
  cases hs : (Inbox.getSessionInfo env ib0).2.2 with
  | some e =>
    simp only [hs] at h
    cases h
  | none =>
    cases hk : (Inbox.createSocket env (Inbox.getSessionInfo env ib0).1).2.2 with
    | some e =>
      simp only [hs, hk] at h
      cases h
    | none =>
      simp only [hs, hk] at h ⊢
      injection h with h
      rw [← h, createSocket_conf, getSessionInfo_conf, getSessionInfo_acts, hc]
      exact ⟨rfl, rfl⟩

theorem New_uses_conf_as_given_witness :
    (New sampleEnv "test" (some { Agent := "", Hostname := "www.mailinator.com" })).result =
        .ok { conf := { Agent := "", Hostname := "www.mailinator.com" }, sessionCookie := "S1",
              inboxName := "test", stopClosed := false, err := none } ∧
      ({ conf := { Agent := "", Hostname := "www.mailinator.com" }, sessionCookie := "S1",
          inboxName := "test", stopClosed := false, err := none } : Inbox).conf =
        { Agent := "", Hostname := "www.mailinator.com" } :=
  ⟨rfl,
    (New_uses_conf_as_given sampleEnv "test"
      (some { Agent := "", Hostname := "www.mailinator.com" }) _ rfl).1⟩

end Mailinator
